import Mathlib

/-!
A shallow embedding of the ai-gmail-sorter classification core
(src/config.ts and src/server.ts): tokenizer and vocabulary builder,
fixed-length sequence encoder, training-artifact persistence trace,
classifier load/predict, the email fetch paths, and the webhook
dispatcher.  Machine numbers that matter here are small naturals
(token ids, sequence lengths), modelled as `Nat`; model outputs are
modelled as rational lists; fallible operations return `Option`.
-/

/-- Maximum vocabulary size, `VOCAB_SIZE` in the source. -/
def VOCAB_SIZE : Nat := 5000

/-- Fixed encoded-sequence length, `MAX_SEQUENCE_LENGTH` in the source. -/
def MAX_SEQUENCE_LENGTH : Nat := 100

/-- One training document: `{ content: string; label: string }`. -/
structure TrainingDoc where
  content : String
  label : String
  deriving DecidableEq, Repr

/-- JS `\w` (ASCII word character): letter, digit or underscore. -/
def isWordChar (c : Char) : Bool := c.isAlphanum || c = '_'

/-- `text.toLowerCase().replace(/[^\w\s]/g, "")`: lowercase, then drop every
character that is neither a word character nor whitespace. -/
def cleanText (s : String) : String :=
  String.mk (s.toLower.data.filter (fun c => isWordChar c || c.isWhitespace))

/-- Helper for `tokenizeChars`: flush the accumulated reversed token. -/
def flushToken (cur : List Char) : List String :=
  if cur.isEmpty then [] else [String.mk cur.reverse]

/-- `cleaned.split(/\s+/).filter(t => t.length > 0)`: cut the character
stream at whitespace runs, keeping only non-empty tokens.  `cur` holds the
current token reversed. -/
def tokenizeChars : List Char → List Char → List String
  | [], cur => flushToken cur
  | c :: cs, cur =>
    if c.isWhitespace then flushToken cur ++ tokenizeChars cs []
    else tokenizeChars cs (c :: cur)

/-- The shared tokenization used by `createVocabulary` (config.ts 311-312)
and `textToSequence` (config.ts 354-355): clean, split on whitespace,
discard empty tokens. -/
def tokenize (s : String) : List String :=
  tokenizeChars (cleanText s).data []

/-- All tokens of the training corpus, in document order. -/
def corpusTokens (emails : List TrainingDoc) : List String :=
  (emails.map (fun e => tokenize e.content)).flatten

/-- Number of occurrences of `w` in the token stream: the count stored in
`wordCounts` for the key `w`. -/
def countOcc (ts : List String) (w : String) : Nat :=
  (ts.filter (fun t => t = w)).length

/-- The distinct keys of `wordCounts`, in first-occurrence order. -/
def dedupFirst : List String → List String
  | [] => []
  | t :: ts => t :: (dedupFirst ts).filter (fun x => x ≠ t)

/-- Stable descending insertion by count: `w` goes in front of the first
strictly less frequent entry. -/
def insertDesc (count : String → Nat) (w : String) : List String → List String
  | [] => [w]
  | x :: xs => if count x < count w then w :: x :: xs else x :: insertDesc count w xs

/-- `Object.keys(wordCounts).sort((a, b) => wordCounts[b] - wordCounts[a])`:
a stable sort of the distinct tokens by descending occurrence count. -/
def sortDesc (count : String → Nat) : List String → List String
  | [] => []
  | x :: xs => insertDesc count x (sortDesc count xs)

/-- The distinct corpus tokens sorted by descending frequency. -/
def sortedWords (emails : List TrainingDoc) : List String :=
  sortDesc (countOcc (corpusTokens emails)) (dedupFirst (corpusTokens emails))

/-- `sortedWords.slice(0, VOCAB_SIZE - 2)`. -/
def topWords (emails : List TrainingDoc) : List String :=
  (sortedWords emails).take (VOCAB_SIZE - 2)

/-- A vocabulary: the token → id association in id-assignment order. -/
abbrev Vocabulary : Type := List (String × Nat)

/-- Association lookup, first match wins (object key lookup). -/
def vlookup : List (String × Nat) → String → Option Nat
  | [], _ => none
  | (k, v) :: rest, w => if k = w then some v else vlookup rest w

/-- `for (let i = 0; i < topWords.length; i++) vocabulary[topWords[i]] = i + 2`:
assign consecutive ids starting at `i`. -/
def assignIds : List String → Nat → List (String × Nat)
  | [], _ => []
  | w :: ws, i => (w, i) :: assignIds ws (i + 1)

/-- `createVocabulary` (config.ts 306-336): reserve `<PAD>` ↦ 0 and
`<UNK>` ↦ 1, then give the top words ids 2, 3, … in descending-frequency
order. -/
def createVocabulary (emails : List TrainingDoc) : Vocabulary :=
  ("<PAD>", 0) :: ("<UNK>", 1) :: assignIds (topWords emails) 2

/-- `padSequence` (config.ts 338-351): right-truncate to `maxLength`, or
right-pad with `paddingValue` up to `maxLength`.  Entries are `Option Nat`
because a JS sequence entry can be `undefined`. -/
def padSequence (sequence : List (Option Nat)) (maxLength : Nat)
    (paddingValue : Option Nat) : List (Option Nat) :=
  if maxLength ≤ sequence.length then sequence.take maxLength
  else sequence ++ List.replicate (maxLength - sequence.length) paddingValue

/-- JS `a || b` on optional numbers: `undefined` and `0` are falsy. -/
def jsOr (a b : Option Nat) : Option Nat :=
  match a with
  | some n => if n = 0 then b else some n
  | none => b

/-- `vocabulary[token] || vocabulary["<UNK>"]` (config.ts 356-358). -/
def tokenId (vocabulary : Vocabulary) (token : String) : Option Nat :=
  jsOr (vlookup vocabulary token) (vlookup vocabulary "<UNK>")

/-- `textToSequence` (config.ts 353-361): tokenize, map each token through
the vocabulary with OOV fallback, pad/truncate to `MAX_SEQUENCE_LENGTH`. -/
def textToSequence (text : String) (vocabulary : Vocabulary) : List (Option Nat) :=
  padSequence ((tokenize text).map (tokenId vocabulary)) MAX_SEQUENCE_LENGTH (some 0)

/-- Helper for `collapseWhitespace`: `inRun` records whether the previous
character was whitespace, so a run contributes one single space. -/
def collapseWsGo : List Char → Bool → List Char
  | [], _ => []
  | c :: rest, inRun =>
    if c.isWhitespace then
      if inRun then collapseWsGo rest true else ' ' :: collapseWsGo rest true
    else c :: collapseWsGo rest false

/-- `s.replace(/\s+/g, " ")`: each maximal whitespace run becomes one space. -/
def collapseWhitespace (s : String) : String :=
  String.mk (collapseWsGo s.data false)

/-- `s.replace(/\s+/g, "")`: delete every whitespace character. -/
def stripWhitespace (s : String) : String :=
  String.mk (s.data.filter (fun c => !c.isWhitespace))

/-- `s.trim()`: drop leading and trailing whitespace. -/
def jsTrim (s : String) : String :=
  String.mk (((s.data.dropWhile Char.isWhitespace).reverse.dropWhile
    Char.isWhitespace).reverse)

/-- Document text on the training fetch path, config.ts 209:
`` `${subject} ${body}`.replace(/\s+/g, " ").trim() ``. -/
def trainEmailContent (subject body : String) : String :=
  jsTrim (collapseWhitespace (subject ++ " " ++ body))

/-- Document text on the inference fetch path, config.ts 250:
`` `${subject} ${body}`.replace(/\s+/g, "").trim() ``. -/
def inferEmailContent (subject body : String) : String :=
  jsTrim (stripWhitespace (subject ++ " " ++ body))

/-- A MIME part: `mimeType`, `body?.data` (modelled as the decoded text of
the part, decoding abstracted to the identity) and optional sub-parts. -/
inductive MessagePart where
  | mk : Option String → Option String → Option (List MessagePart) → MessagePart

/-- The `mimeType` field. -/
def MessagePart.mimeType : MessagePart → Option String
  | .mk m _ _ => m

/-- The `body?.data` field. -/
def MessagePart.bodyData : MessagePart → Option String
  | .mk _ d _ => d

/-- The nested `parts` field. -/
def MessagePart.subparts : MessagePart → Option (List MessagePart)
  | .mk _ _ p => p

/-- JS truthiness of an optional string: `undefined` and `""` are falsy. -/
def jsTruthyStr : Option String → Bool
  | none => false
  | some s => s ≠ ""

/-- The loop body of `parseEmailBody` (config.ts 122-142) over a part list:
return the first `text/plain` part's truthy body data, recursing into
sub-parts and keeping only non-empty recursive results. -/
def parseEmailBodyList : List MessagePart → String
  | [] => ""
  | MessagePart.mk mime bodyData subparts :: rest =>
    if mime = some "text/plain" && jsTruthyStr bodyData then bodyData.getD ""
    else
      match subparts with
      | some sub =>
        let body := parseEmailBodyList sub
        if body ≠ "" then body else parseEmailBodyList rest
      | none => parseEmailBodyList rest

/-- `parseEmailBody` (config.ts 122-142): `undefined` parts yield `""`. -/
def parseEmailBody : Option (List MessagePart) → String
  | none => ""
  | some parts => parseEmailBodyList parts

/-- One email header `{ name?, value? }`. -/
structure EmailHeader where
  name : Option String
  value : Option String

/-- An email payload: optional header list and optional part tree. -/
structure EmailPayload where
  headers : Option (List EmailHeader)
  parts : Option (List MessagePart)

/-- A fetched email (`email.data`), with an optional payload. -/
structure EmailData where
  payload : Option EmailPayload

/-- `headers?.find(h => h.name === "Subject")?.value || ""`
(config.ts 202-204 and 247-248). -/
def subjectOf (email : EmailData) : String :=
  match (email.payload.bind EmailPayload.headers) with
  | none => ""
  | some hs =>
    match hs.find? (fun h => h.name = some "Subject") with
    | none => ""
    | some h => h.value.getD ""

/-- The plain-text body of an email: `parseEmailBody(email.payload?.parts)`. -/
def bodyOf (email : EmailData) : String :=
  parseEmailBody (email.payload.bind EmailPayload.parts)

/-- The push step of `getEmailsForLabel`'s per-email loop (config.ts
200-214): keep the email only when its parsed body is truthy, building the
document from the normalized subject+body with the requested label. -/
def docOfEmail (lbl : String) (email : EmailData) : Option TrainingDoc :=
  if bodyOf email ≠ "" then
    some { content := trainEmailContent (subjectOf email) (bodyOf email), label := lbl }
  else none

/-- One page returned by `gmail.users.messages.list`: the optional message
list (each message carrying an optional id) and the optional next token. -/
structure ListPage where
  messages : Option (List (Option String))
  nextPageToken : Option String

/-- Process every message of one page (config.ts 182-219): messages
without an id contribute nothing (`null` email), the rest are fetched and
pushed when their parsed body is non-empty.  Chunking and the 250 ms sleep
only pace the API calls and do not change the produced list. -/
def processPage (getMsg : String → Option EmailData) (lbl : String)
    (msgs : List (Option String)) : List TrainingDoc :=
  msgs.filterMap (fun mid => (mid.bind getMsg).bind (docOfEmail lbl))

/-- The Gmail category names recognized by `getEmailsForLabel`. -/
def knownCategories : List String :=
  ["primary", "social", "promotions", "updates", "forums"]

/-- JS `s.replace(" ", "-")` with a string pattern: first occurrence only. -/
def replaceFirstSpace (s : String) : String :=
  match s.splitOn " " with
  | [] => s
  | [_] => s
  | a :: rest => a ++ "-" ++ String.intercalate " " rest

/-- The search query of `getEmailsForLabel` (config.ts 151-160). -/
def buildQuery (labelOrCategory : String) : String :=
  if knownCategories.contains labelOrCategory.toLower then
    "category:" ++ labelOrCategory.toLower
  else
    "label:" ++ replaceFirstSpace labelOrCategory.toLower

/-- The `while (trainingData.length < maxResults)` pagination loop of
`getEmailsForLabel` (config.ts 167-225).  `listMsgs` is the external list
capability applied to the query; the requested page size is
`Math.min(50, maxResults - trainingData.length)`; the loop stops on a
missing or empty message list, on a missing next-page token, or once
enough documents are collected.  `fuel` bounds the number of pages
consumed so the loop is total. -/
def fetchLoop (listMsgs : Nat → Option String → ListPage)
    (getMsg : String → Option EmailData) (lbl : String) (maxResults : Nat) :
    Nat → Option String → List TrainingDoc → List TrainingDoc
  | 0, _, acc => acc
  | fuel + 1, pageToken, acc =>
    if acc.length < maxResults then
      match (listMsgs (min 50 (maxResults - acc.length)) pageToken).messages with
      | none => acc
      | some [] => acc
      | some msgs =>
        match (listMsgs (min 50 (maxResults - acc.length)) pageToken).nextPageToken with
        | none => acc ++ processPage getMsg lbl msgs
        | some t =>
          fetchLoop listMsgs getMsg lbl maxResults fuel (some t)
            (acc ++ processPage getMsg lbl msgs)
    else acc

/-- `getEmailsForLabel` (config.ts 144-231), parameterized by the external
list and get capabilities. -/
def getEmailsForLabel (listMsgs : String → Nat → Option String → ListPage)
    (getMsg : String → Option EmailData) (labelOrCategory : String)
    (maxResults : Nat) (fuel : Nat) : List TrainingDoc :=
  fetchLoop (listMsgs (buildQuery labelOrCategory)) getMsg labelOrCategory
    maxResults fuel none []

/-- `getEmailContent` (config.ts 235-257): fetch one message and normalize
subject+body with the inference-path normalization; a failed fetch (or a
missing `email.data`) yields `null`. -/
def getEmailContent (getMsg : String → Option EmailData) (messageId : String) :
    Option String :=
  match getMsg messageId with
  | none => none
  | some email => some (inferEmailContent (subjectOf email) (bodyOf email))

/-- `[...new Set(labels)]` (config.ts 430): distinct labels in
first-occurrence order. -/
def uniqueLabels (emails : List TrainingDoc) : List String :=
  dedupFirst (emails.map TrainingDoc.label)

/-- The externally visible effects of one `trainModel` run, in program
order: directory creation, the vocabulary file write, the `model.fit`
training run, the model save, and the labels file write. -/
inductive TrainEvent where
  | mkdirModelDir
  | writeVocab (v : Vocabulary)
  | fitModel
  | saveModel
  | writeLabels (labels : List String)

/-- The outcome of `trainModel`: the empty-corpus early return (after
logging "Cannot train model: No training data provided.") or a completed
run. -/
inductive TrainResult where
  | noTrainingData
  | trained
  deriving DecidableEq

/-- `trainModel` (config.ts 415-464) as its result together with its
ordered effect trace: an empty corpus returns early with no effects;
otherwise the run makes the model directory, writes `vocabulary.json`,
fits the model, saves the model files, and writes `labels.json`. -/
def trainModel (emails : List TrainingDoc) : TrainResult × List TrainEvent :=
  if emails.length = 0 then
    (TrainResult.noTrainingData, [])
  else
    (TrainResult.trained,
      [TrainEvent.mkdirModelDir,
       TrainEvent.writeVocab (createVocabulary emails),
       TrainEvent.fitModel,
       TrainEvent.saveModel,
       TrainEvent.writeLabels (uniqueLabels emails)])

/-- Whether an effect makes one of the three bundle artifact files
durable. -/
def isArtifactWrite : TrainEvent → Bool
  | TrainEvent.writeVocab _ => true
  | TrainEvent.saveModel => true
  | TrainEvent.writeLabels _ => true
  | _ => false

/-- Scans an effect trace: `true` iff no artifact file is written before
the training run (the `fitModel` effect) has completed. -/
def noDurableWriteBeforeFit : List TrainEvent → Bool
  | [] => true
  | TrainEvent.fitModel :: _ => true
  | e :: rest => !isArtifactWrite e && noDurableWriteBeforeFit rest

/-- The model as loaded by the classifier, abstracted to its forward pass
from an encoded sequence to an output distribution. -/
structure ModelFn where
  forward : List (Option Nat) → List Rat

/-- The three private fields of `class Classifier` (config.ts 466-469),
each initialized to `null`. -/
structure ClassifierState where
  model : Option ModelFn
  vocabulary : Option Vocabulary
  labels : Option (List String)

/-- A freshly constructed `Classifier`. -/
def Classifier.init : ClassifierState :=
  { model := none, vocabulary := none, labels := none }

/-- The persisted artifact store: `model.json`, `vocabulary.json` and
`labels.json`, each possibly missing. -/
structure ArtifactStore where
  modelFile : Option ModelFn
  vocabFile : Option Vocabulary
  labelsFile : Option (List String)

/-- Outcome of `Classifier.load`: the updated state, or the
`process.exit(1)` taken when any artifact read fails. -/
inductive LoadOutcome where
  | ok (st : ClassifierState)
  | exited

/-- `Classifier.load` (config.ts 473-488): reads the model, the
vocabulary, and the labels file.  The labels file content is bound to the
local `labelsData` and never assigned to `this.labels`, so the `labels`
field keeps its previous value. -/
def Classifier.load (st : ClassifierState) (store : ArtifactStore) : LoadOutcome :=
  match store.modelFile, store.vocabFile, store.labelsFile with
  | some m, some v, some _labelsData =>
    LoadOutcome.ok { model := some m, vocabulary := some v, labels := st.labels }
  | _, _, _ => LoadOutcome.exited

/-- Helper for `argMaxIdx`: fold the tail keeping the best value and its
index; strict `<` keeps the first (lowest) index on ties. -/
def argMaxGo : List Rat → Rat → Nat → Nat → Nat
  | [], _, bestIdx, _ => bestIdx
  | y :: ys, best, bestIdx, i =>
    if best < y then argMaxGo ys y i (i + 1) else argMaxGo ys best bestIdx (i + 1)

/-- `prediction.argMax(-1).dataSync()[0]`: index of the maximum output,
first index on ties. -/
def argMaxIdx : List Rat → Nat
  | [] => 0
  | x :: xs => argMaxGo xs x 0 1

/-- `Classifier.predict` (config.ts 490-505): if any of the three fields
is `null`, log "Classifier not loaded" and return `null`; otherwise
encode, run the forward pass, take the argmax and index the label list
(an out-of-range index yields `undefined`, also modelled as `none`). -/
def Classifier.predict (st : ClassifierState) (emailContent : String) : Option String :=
  match st.model, st.vocabulary, st.labels with
  | some m, some vocab, some labels =>
    labels[argMaxIdx (m.forward (textToSequence emailContent vocab))]?
  | _, _, _ => none

/-- One entry of `messagesAdded`, carrying `message?.id`. -/
structure MessageRef where
  id : Option String

/-- One history record, carrying the optional `messagesAdded` list. -/
structure HistoryRecord where
  messagesAdded : Option (List MessageRef)

/-- External calls the webhook handler can make after the history lookup. -/
inductive DispatchCall where
  | fetchContent (id : String)
  | predictCall (text : String)
  | applyLabel (id : String) (label : String)
  deriving DecidableEq

/-- The JSON acknowledgment returned by the webhook endpoint. -/
structure WebhookResponse where
  success : Bool
  message : String
  deriving DecidableEq

/-- The environment one webhook invocation sees: the history response
(`historyResponse.data.history`), the content-fetch capability (i.e.
`getEmailContent` over the live Gmail client), and the loaded classifier
state. -/
structure WebhookEnv where
  history : Option (List HistoryRecord)
  content : String → Option String
  classifier : ClassifierState

/-- `historyResponse.data.history?.[0]?.messagesAdded` (server.ts 58). -/
def addedMessagesOf (env : WebhookEnv) : Option (List MessageRef) :=
  (env.history.bind List.head?).bind HistoryRecord.messagesAdded

/-- The `/webhook` handler (server.ts 36-92) after the history lookup:
the returned acknowledgment together with the ordered list of external
calls made.  A missing or empty `messagesAdded` acknowledges success with
no calls; a missing first message id acknowledges success; a failed or
empty content fetch acknowledges failure after only the fetch call; a
`null` prediction acknowledges failure without a label application;
otherwise the predicted label is applied and returned. -/
def handleWebhook (env : WebhookEnv) : WebhookResponse × List DispatchCall :=
  match addedMessagesOf env with
  | none => ({ success := true, message := "No new messages in history." }, [])
  | some [] => ({ success := true, message := "No new messages in history." }, [])
  | some (first :: _) =>
    match first.id with
    | none => ({ success := true, message := "Message ID missing." }, [])
    | some messageId =>
      match env.content messageId with
      | none =>
        ({ success := false, message := "Content fetch failed." },
         [DispatchCall.fetchContent messageId])
      | some content =>
        if content = "" then
          ({ success := false, message := "Content fetch failed." },
           [DispatchCall.fetchContent messageId])
        else
          match Classifier.predict env.classifier content with
          | none =>
            ({ success := false, message := "Prediction failed." },
             [DispatchCall.fetchContent messageId, DispatchCall.predictCall content])
          | some predictedLabel =>
            ({ success := true, message := predictedLabel },
             [DispatchCall.fetchContent messageId, DispatchCall.predictCall content,
              DispatchCall.applyLabel messageId predictedLabel])

/-! ### Supporting lemmas -/

/-- A successful association lookup returns a stored pair. -/
theorem vlookup_mem {V : List (String × Nat)} {w : String} {n : Nat}
    (h : vlookup V w = some n) : (w, n) ∈ V := by
  induction V with
  | nil => simp [vlookup] at h
  | cons p rest ih =>
    obtain ⟨k, v⟩ := p
    by_cases hk : k = w
    · subst hk
      simp [vlookup] at h
      simp [h]
    · simp [vlookup, hk] at h
      exact List.mem_cons_of_mem _ (ih h)

/-- Ids handed out by `assignIds` lie in `[i, i + ws.length)`. -/
theorem mem_assignIds {ws : List String} {i : Nat} {w : String} {n : Nat}
    (h : (w, n) ∈ assignIds ws i) : i ≤ n ∧ n < i + ws.length := by
  induction ws generalizing i with
  | nil => simp [assignIds] at h
  | cons x xs ih =>
    simp only [assignIds, List.mem_cons] at h
    rcases h with h | h
    · cases h
      simp
    · have := ih h
      constructor
      · omega
      · simp only [List.length_cons]
        omega

/-- `assignIds` keeps the word list as its key column. -/
theorem assignIds_map_fst (ws : List String) (i : Nat) :
    (assignIds ws i).map Prod.fst = ws := by
  induction ws generalizing i with
  | nil => rfl
  | cons x xs ih => simp [assignIds, ih]

/-- `assignIds` hands out consecutive ids starting at `i`. -/
theorem assignIds_map_snd (ws : List String) (i : Nat) :
    (assignIds ws i).map Prod.snd = List.range' i ws.length := by
  induction ws generalizing i with
  | nil => rfl
  | cons x xs ih => simp [assignIds, ih, List.range'_succ]

/-- `assignIds` preserves length. -/
theorem assignIds_length (ws : List String) (i : Nat) :
    (assignIds ws i).length = ws.length := by
  induction ws generalizing i with
  | nil => rfl
  | cons x xs ih => simp [assignIds, ih]

/-- The built vocabulary has two reserved entries plus the top words. -/
theorem createVocabulary_length (emails : List TrainingDoc) :
    (createVocabulary emails).length = 2 + (topWords emails).length := by
  simp [createVocabulary, assignIds_length]
  omega

/-- Every id stored in the built vocabulary is below its size. -/
theorem mem_createVocabulary_snd_lt (emails : List TrainingDoc)
    {w : String} {n : Nat} (h : (w, n) ∈ createVocabulary emails) :
    n < (createVocabulary emails).length := by
  rw [createVocabulary_length]
  simp only [createVocabulary, List.mem_cons] at h
  rcases h with h | h | h
  · cases h; omega
  · cases h; omega
  · have := mem_assignIds h
    omega

/-- The OOV entry of a built vocabulary. -/
theorem vlookup_unk (emails : List TrainingDoc) :
    vlookup (createVocabulary emails) "<UNK>" = some 1 := by
  simp [createVocabulary, vlookup]

/-- The padding entry of a built vocabulary. -/
theorem vlookup_pad (emails : List TrainingDoc) :
    vlookup (createVocabulary emails) "<PAD>" = some 0 := by
  simp [createVocabulary, vlookup]

/-- Against a built vocabulary, every token maps to a defined id that is
positive and below the vocabulary size. -/
theorem tokenId_createVocabulary (emails : List TrainingDoc) (tok : String) :
    ∃ n, tokenId (createVocabulary emails) tok = some n ∧ 0 < n ∧
      n < (createVocabulary emails).length := by
  unfold tokenId
  cases h : vlookup (createVocabulary emails) tok with
  | none =>
    refine ⟨1, ?_, by omega, ?_⟩
    · simp [jsOr, vlookup_unk]
    · rw [createVocabulary_length]; omega
  | some n =>
    by_cases hn : n = 0
    · subst hn
      refine ⟨1, ?_, by omega, ?_⟩
      · simp [jsOr, vlookup_unk]
      · rw [createVocabulary_length]; omega
    · exact ⟨n, by simp [jsOr, hn], by omega, mem_createVocabulary_snd_lt emails (vlookup_mem h)⟩

/-- Membership in an inserted list. -/
theorem mem_insertDesc {count : String → Nat} {w y : String} {l : List String}
    (h : y ∈ insertDesc count w l) : y = w ∨ y ∈ l := by
  induction l with
  | nil => simpa [insertDesc] using h
  | cons x xs ih =>
    simp only [insertDesc] at h
    split at h
    · simpa using h
    · rcases List.mem_cons.mp h with h | h
      · simp [h]
      · rcases ih h with h | h
        · simp [h]
        · simp [h]

/-- Inserting into a descending-by-count list keeps it descending. -/
theorem pairwise_insertDesc (count : String → Nat) (w : String) (l : List String)
    (h : l.Pairwise (fun a b => count b ≤ count a)) :
    (insertDesc count w l).Pairwise (fun a b => count b ≤ count a) := by
  induction l with
  | nil => simp [insertDesc]
  | cons x xs ih =>
    rw [List.pairwise_cons] at h
    simp only [insertDesc]
    split
    · rename_i hlt
      refine List.Pairwise.cons ?_ (List.Pairwise.cons h.1 h.2)
      intro y hy
      rcases List.mem_cons.mp hy with hy | hy
      · subst hy; omega
      · have := h.1 y hy; omega
    · rename_i hge
      refine List.Pairwise.cons ?_ (ih h.2)
      intro y hy
      rcases mem_insertDesc hy with hy | hy
      · subst hy; omega
      · exact h.1 y hy

/-- `sortDesc` produces a descending-by-count list. -/
theorem pairwise_sortDesc (count : String → Nat) (l : List String) :
    (sortDesc count l).Pairwise (fun a b => count b ≤ count a) := by
  induction l with
  | nil => simp [sortDesc]
  | cons x xs ih => exact pairwise_insertDesc count x _ ih

/-- The top words are in descending frequency order. -/
theorem pairwise_topWords (emails : List TrainingDoc) :
    (topWords emails).Pairwise
      (fun a b => countOcc (corpusTokens emails) b ≤ countOcc (corpusTokens emails) a) :=
  List.Pairwise.sublist (List.take_sublist _ _) (pairwise_sortDesc _ _)

/-- A padded sequence always has length exactly `maxLength`. -/
theorem padSequence_length (sequence : List (Option Nat)) (maxLength : Nat)
    (paddingValue : Option Nat) :
    (padSequence sequence maxLength paddingValue).length = maxLength := by
  unfold padSequence
  split <;> rename_i h
  · simp [List.length_take]; omega
  · simp; omega

/-- The padded sequence is the truncated sequence followed by padding. -/
theorem padSequence_eq (sequence : List (Option Nat)) (maxLength : Nat)
    (paddingValue : Option Nat) :
    padSequence sequence maxLength paddingValue =
      sequence.take maxLength
        ++ List.replicate (maxLength - sequence.length) paddingValue := by
  unfold padSequence
  split <;> rename_i h
  · have : maxLength - sequence.length = 0 := by omega
    simp [this]
  · rw [List.take_of_length_le (by omega)]

/-- A page never contributes more documents than it has messages. -/
theorem length_processPage_le (getMsg : String → Option EmailData) (lbl : String)
    (msgs : List (Option String)) :
    (processPage getMsg lbl msgs).length ≤ msgs.length :=
  List.length_filterMap_le _ _

/-- Every document produced from a page carries the requested label and
comes from an email whose parsed plain-text body is non-empty. -/
theorem mem_processPage (getMsg : String → Option EmailData) (lbl : String)
    (msgs : List (Option String)) {d : TrainingDoc}
    (h : d ∈ processPage getMsg lbl msgs) :
    d.label = lbl ∧ ∃ email : EmailData, bodyOf email ≠ "" ∧
      d.content = trainEmailContent (subjectOf email) (bodyOf email) := by
  simp only [processPage, List.mem_filterMap] at h
  obtain ⟨mid, _, h⟩ := h
  rw [Option.bind_eq_some] at h
  obtain ⟨email, _, h⟩ := h
  unfold docOfEmail at h
  split at h
  · rename_i hbody
    cases h
    exact ⟨rfl, email, hbody, rfl⟩
  · cases h

/-- Invariant of the `getEmailsForLabel` pagination loop: assuming the
list capability honours its requested page size, the accumulated result
never exceeds `maxResults`, and every document beyond the accumulator
carries the requested label and a non-empty parsed body. -/
theorem fetchLoop_spec (listMsgs : Nat → Option String → ListPage)
    (getMsg : String → Option EmailData) (lbl : String) (maxResults : Nat)
    (hapi : ∀ n tok, (((listMsgs n tok).messages).getD []).length ≤ n) :
    ∀ (fuel : Nat) (tok : Option String) (acc : List TrainingDoc),
      acc.length ≤ maxResults →
      (fetchLoop listMsgs getMsg lbl maxResults fuel tok acc).length ≤ maxResults ∧
      ∀ d ∈ fetchLoop listMsgs getMsg lbl maxResults fuel tok acc,
        d ∈ acc ∨ (d.label = lbl ∧ ∃ email : EmailData, bodyOf email ≠ "" ∧
          d.content = trainEmailContent (subjectOf email) (bodyOf email)) := by
  intro fuel
  induction fuel with
  | zero =>
    intro tok acc hacc
    refine ⟨by simpa [fetchLoop] using hacc, ?_⟩
    intro d hd
    left
    simpa [fetchLoop] using hd
  | succ n ih =>
    intro tok acc hacc
    rw [fetchLoop]
    by_cases hlen : acc.length < maxResults
    · rw [if_pos hlen]
      cases hmsgs : (listMsgs (min 50 (maxResults - acc.length)) tok).messages with
      | none => exact ⟨hacc, fun d hd => Or.inl hd⟩
      | some msgs =>
        cases msgs with
        | nil => exact ⟨hacc, fun d hd => Or.inl hd⟩
        | cons m ms =>
          have hsize : (m :: ms).length ≤ min 50 (maxResults - acc.length) := by
            have := hapi (min 50 (maxResults - acc.length)) tok
            rwa [hmsgs] at this
          have hacc2 : (acc ++ processPage getMsg lbl (m :: ms)).length ≤ maxResults := by
            have hp := length_processPage_le getMsg lbl (m :: ms)
            simp only [List.length_append]
            omega
          have hmem2 : ∀ d ∈ acc ++ processPage getMsg lbl (m :: ms),
              d ∈ acc ∨ (d.label = lbl ∧ ∃ email : EmailData, bodyOf email ≠ "" ∧
                d.content = trainEmailContent (subjectOf email) (bodyOf email)) := by
            intro d hd
            rcases List.mem_append.mp hd with hd | hd
            · exact Or.inl hd
            · exact Or.inr (mem_processPage getMsg lbl _ hd)
          cases htok : (listMsgs (min 50 (maxResults - acc.length)) tok).nextPageToken with
          | none => exact ⟨hacc2, hmem2⟩
          | some t =>
            have hrec := ih (some t) (acc ++ processPage getMsg lbl (m :: ms)) hacc2
            refine ⟨hrec.1, ?_⟩
            intro d hd
            rcases hrec.2 d hd with hd2 | hd2
            · exact hmem2 d hd2
            · exact Or.inr hd2
    · rw [if_neg hlen]
      exact ⟨hacc, fun d hd => Or.inl hd⟩

/-! ### Claims -/

/-- C1: the spec claims that after a successful `Classifier.load`,
`predict` returns the label at the argmax of the model's output
distribution, with `null` only on an internal computation failure.  The
code violates this: `load` reads `labels.json` into a local and never
assigns `this.labels`, so after any successful load of a freshly
constructed classifier, every `predict` call takes the not-loaded guard
and returns `null` for every input. -/
theorem C1_predict_after_load_always_null (store : ArtifactStore)
    (st2 : ClassifierState) (t : String)
    (h : Classifier.load Classifier.init store = LoadOutcome.ok st2) :
    Classifier.predict st2 t = none := by
  obtain ⟨mf, vf, lf⟩ := store
  cases mf with
  | none => simp [Classifier.load] at h
  | some m =>
    cases vf with
    | none => simp [Classifier.load] at h
    | some v =>
      cases lf with
      | none => simp [Classifier.load] at h
      | some ls =>
        simp only [Classifier.load] at h
        cases h
        rfl

/-- Witness for C1: a concrete store with all three files present loads
successfully, yet `predict` returns `null`. -/
theorem C1_predict_after_load_always_null_witness :
    Classifier.predict
      { model := some { forward := fun _ => [1] },
        vocabulary := some [("<PAD>", 0), ("<UNK>", 1)], labels := none }
      "hello" = none :=
  C1_predict_after_load_always_null
    { modelFile := some { forward := fun _ => [1] },
      vocabFile := some [("<PAD>", 0), ("<UNK>", 1)], labelsFile := some ["Primary"] }
    { model := some { forward := fun _ => [1] },
      vocabulary := some [("<PAD>", 0), ("<UNK>", 1)], labels := none }
    "hello" rfl

/-- The concrete email used to compare the two fetch paths: subject "a",
one `text/plain` part with body "b". -/
def emailAB : EmailData :=
  { payload := some
      { headers := some [{ name := some "Subject", value := some "a" }],
        parts := some [MessagePart.mk (some "text/plain") (some "b") none] } }

/-- C2: the spec claims the training fetch path (`getEmailsForLabel`)
and the inference fetch path (`getEmailContent`) produce byte-identical
document text for the same email.  They do not: the training path
collapses whitespace runs to one space (`replace` with a single space)
while the inference path deletes all whitespace (`replace` with the
empty string).  For subject "a" and body "b" the training path yields
"a b" and the inference path "ab". -/
theorem C2_fetch_paths_diverge :
    docOfEmail "Primary" emailAB = some { content := "a b", label := "Primary" } ∧
    getEmailContent (fun _ => some emailAB) "m1" = some "ab" ∧
    trainEmailContent "a" "b" = "a b" ∧
    inferEmailContent "a" "b" = "ab" ∧
    trainEmailContent "a" "b" ≠ inferEmailContent "a" "b" := by
  have hbody : bodyOf emailAB = "b" := by
    simp [bodyOf, emailAB, parseEmailBody, parseEmailBodyList, jsTruthyStr]
  have hsubj : subjectOf emailAB = "a" := by decide
  refine ⟨?_, ?_, by decide, by decide, by decide⟩
  · simp [docOfEmail, hbody, hsubj]
    decide
  · simp [getEmailContent, hbody, hsubj]
    decide

/-- C3 counterexample: the claim that no artifact file of the bundle is
made durable before the training run completes fails on the code: for
the one-document corpus below, the `trainModel` effect trace writes
`vocabulary.json` before the `model.fit` training run. -/
theorem C3_counterexample :
    noDurableWriteBeforeFit
      (trainModel [{ content := "apple", label := "A" }]).2 = false := rfl

/-- C3 (amended): `trainModel` persists the bundle in stages rather than
as one atomic bundle: on every non-empty corpus its effect trace writes
the Vocabulary before the training run and the Model Artifact and Label
Set only after it, so an interruption mid-run can leave the vocabulary
file durable without the other two. -/
theorem C3_staged_persistence (emails : List TrainingDoc) (h : emails ≠ []) :
    (trainModel emails).1 = TrainResult.trained ∧
    (trainModel emails).2 =
      [TrainEvent.mkdirModelDir,
       TrainEvent.writeVocab (createVocabulary emails),
       TrainEvent.fitModel,
       TrainEvent.saveModel,
       TrainEvent.writeLabels (uniqueLabels emails)] := by
  have hlen : ¬ emails.length = 0 := by
    simpa [List.length_eq_zero] using h
  unfold trainModel
  rw [if_neg hlen]
  exact ⟨rfl, rfl⟩

/-- Witness for the amended C3 at a concrete one-document corpus. -/
theorem C3_staged_persistence_witness :
    (trainModel [{ content := "apple", label := "A" }]).1 = TrainResult.trained ∧
    (trainModel [{ content := "apple", label := "A" }]).2 =
      [TrainEvent.mkdirModelDir,
       TrainEvent.writeVocab (createVocabulary [{ content := "apple", label := "A" }]),
       TrainEvent.fitModel,
       TrainEvent.saveModel,
       TrainEvent.writeLabels (uniqueLabels [{ content := "apple", label := "A" }])] :=
  C3_staged_persistence [{ content := "apple", label := "A" }] (by simp)

/-- C4: for every text and every vocabulary built by `createVocabulary`,
`textToSequence` returns a sequence of length exactly
`MAX_SEQUENCE_LENGTH` whose every entry is a defined id below the
vocabulary size, and the sequence is the first `MAX_SEQUENCE_LENGTH`
token ids (tail truncated) right-padded with the padding id 0. -/
theorem C4_textToSequence_shape (t : String) (emails : List TrainingDoc) :
    (textToSequence t (createVocabulary emails)).length = MAX_SEQUENCE_LENGTH ∧
    (∀ x ∈ textToSequence t (createVocabulary emails),
      ∃ n, x = some n ∧ n < (createVocabulary emails).length) ∧
    textToSequence t (createVocabulary emails) =
      ((tokenize t).map (tokenId (createVocabulary emails))).take MAX_SEQUENCE_LENGTH
        ++ List.replicate (MAX_SEQUENCE_LENGTH - (tokenize t).length) (some 0) := by
  refine ⟨padSequence_length _ _ _, ?_, ?_⟩
  · intro x hx
    unfold textToSequence at hx
    rw [padSequence_eq] at hx
    rcases List.mem_append.mp hx with hx | hx
    · have hx2 := List.take_subset _ _ hx
      obtain ⟨tok, _, htok⟩ := List.mem_map.mp hx2
      obtain ⟨n, hn, _, hlt⟩ := tokenId_createVocabulary emails tok
      exact ⟨n, by rw [← htok, hn], hlt⟩
    · refine ⟨0, List.eq_of_mem_replicate hx, ?_⟩
      rw [createVocabulary_length]
      omega
  · unfold textToSequence
    rw [padSequence_eq, List.length_map]

/-- C5: `createVocabulary` reserves id 0 for the padding symbol and id 1
for the OOV symbol, assigns the learned tokens consecutive ids starting
at 2 in descending frequency order, and returns a vocabulary of size at
most `VOCAB_SIZE`; the per-token mapping of `textToSequence` sends every
absent token to the OOV id 1 and never sends any token to the padding
id 0. -/
theorem C5_vocabulary_layout (emails : List TrainingDoc) :
    vlookup (createVocabulary emails) "<PAD>" = some 0 ∧
    vlookup (createVocabulary emails) "<UNK>" = some 1 ∧
    ((createVocabulary emails).drop 2).map Prod.fst = topWords emails ∧
    ((createVocabulary emails).drop 2).map Prod.snd =
      List.range' 2 (topWords emails).length ∧
    (topWords emails).Pairwise
      (fun a b => countOcc (corpusTokens emails) b ≤ countOcc (corpusTokens emails) a) ∧
    (createVocabulary emails).length ≤ VOCAB_SIZE ∧
    (∀ tok, vlookup (createVocabulary emails) tok = none →
      tokenId (createVocabulary emails) tok = some 1) ∧
    (∀ tok, tokenId (createVocabulary emails) tok ≠ some 0) := by
  refine ⟨vlookup_pad emails, vlookup_unk emails, ?_, ?_,
    pairwise_topWords emails, ?_, ?_, ?_⟩
  · simpa [createVocabulary] using assignIds_map_fst (topWords emails) 2
  · simpa [createVocabulary] using assignIds_map_snd (topWords emails) 2
  · have h1 : (topWords emails).length ≤ VOCAB_SIZE - 2 := by
      unfold topWords
      simp [List.length_take]
    rw [createVocabulary_length]
    unfold VOCAB_SIZE at h1 ⊢
    omega
  · intro tok h
    simp [tokenId, jsOr, h, vlookup_unk]
  · intro tok
    obtain ⟨n, hn, hpos, _⟩ := tokenId_createVocabulary emails tok
    rw [hn]
    simp only [ne_eq, Option.some.injEq]
    omega

/-- C6: `trainModel` on an empty document list takes the no-training-data
early return and performs no effect at all: no vocabulary, model, or
labels file is written and the artifact store is untouched. -/
theorem C6_empty_corpus_writes_nothing :
    trainModel ([] : List TrainingDoc) = (TrainResult.noTrainingData, []) := rfl

/-- C7: calling `Classifier.predict` on a freshly constructed classifier,
before any successful `load`, takes the fail-fast not-loaded guard and
returns `null`: it does not crash and returns no label string at all, in
particular none outside the persisted Label Set. -/
theorem C7_predict_before_load (t : String) :
    Classifier.predict Classifier.init t = none := rfl

/-- C8: when the history lookup yields no newly-added messages, the
webhook dispatcher acknowledges success as a no-op and makes no external
call at all; since the handler is a function of its environment, two
invocations against the same checkpoint with no new items both yield the
same no-op success, and across both invocations no predict or
label-application call is made. -/
theorem C8_noop_idempotent (env : WebhookEnv)
    (h : addedMessagesOf env = none ∨ addedMessagesOf env = some []) :
    handleWebhook env =
      ({ success := true, message := "No new messages in history." }, []) ∧
    (handleWebhook env).2 ++ (handleWebhook env).2 = [] ∧
    (∀ t, DispatchCall.predictCall t ∉ (handleWebhook env).2) ∧
    (∀ i l, DispatchCall.applyLabel i l ∉ (handleWebhook env).2) := by
  have hmain : handleWebhook env =
      ({ success := true, message := "No new messages in history." }, []) := by
    rcases h with h | h <;> simp [handleWebhook, h]
  refine ⟨hmain, ?_, ?_, ?_⟩ <;> simp [hmain]

/-- Witness for C8 at a concrete environment whose history is absent. -/
theorem C8_noop_idempotent_witness :
    handleWebhook
      { history := none, content := fun _ => none, classifier := Classifier.init } =
      ({ success := true, message := "No new messages in history." }, []) ∧
    (handleWebhook
      { history := none, content := fun _ => none, classifier := Classifier.init }).2 ++
      (handleWebhook
        { history := none, content := fun _ => none, classifier := Classifier.init }).2 = [] ∧
    (∀ t, DispatchCall.predictCall t ∉ (handleWebhook
      { history := none, content := fun _ => none, classifier := Classifier.init }).2) ∧
    (∀ i l, DispatchCall.applyLabel i l ∉ (handleWebhook
      { history := none, content := fun _ => none, classifier := Classifier.init }).2) :=
  C8_noop_idempotent
    { history := none, content := fun _ => none, classifier := Classifier.init }
    (Or.inl rfl)

/-- C9: when the first newly-added message has an id but its content
fetch fails (`null`) or yields the empty string, the dispatcher returns
the failure acknowledgment after only the fetch call: neither predict
nor the label-application capability is invoked for that event. -/
theorem C9_content_unavailable (env : WebhookEnv) (first : MessageRef)
    (rest : List MessageRef) (mid : String)
    (hmsgs : addedMessagesOf env = some (first :: rest))
    (hid : first.id = some mid)
    (hcontent : env.content mid = none ∨ env.content mid = some "") :
    handleWebhook env =
      ({ success := false, message := "Content fetch failed." },
       [DispatchCall.fetchContent mid]) ∧
    (∀ t, DispatchCall.predictCall t ∉ (handleWebhook env).2) ∧
    (∀ i l, DispatchCall.applyLabel i l ∉ (handleWebhook env).2) := by
  have hmain : handleWebhook env =
      ({ success := false, message := "Content fetch failed." },
       [DispatchCall.fetchContent mid]) := by
    rcases hcontent with h | h <;> simp [handleWebhook, hmsgs, hid, h]
  refine ⟨hmain, ?_, ?_⟩ <;> simp [hmain]

/-- Witness for C9 at a concrete environment whose content fetch yields
the empty string for the one new message. -/
theorem C9_content_unavailable_witness :
    handleWebhook
      { history := some [{ messagesAdded := some [{ id := some "m1" }] }],
        content := fun _ => some "", classifier := Classifier.init } =
      ({ success := false, message := "Content fetch failed." },
       [DispatchCall.fetchContent "m1"]) ∧
    (∀ t, DispatchCall.predictCall t ∉ (handleWebhook
      { history := some [{ messagesAdded := some [{ id := some "m1" }] }],
        content := fun _ => some "", classifier := Classifier.init }).2) ∧
    (∀ i l, DispatchCall.applyLabel i l ∉ (handleWebhook
      { history := some [{ messagesAdded := some [{ id := some "m1" }] }],
        content := fun _ => some "", classifier := Classifier.init }).2) :=
  C9_content_unavailable
    { history := some [{ messagesAdded := some [{ id := some "m1" }] }],
      content := fun _ => some "", classifier := Classifier.init }
    { id := some "m1" } [] "m1" rfl rfl (Or.inr rfl)

/-- C10: whenever the external list capability honours its requested
page size, `getEmailsForLabel` returns at most `maxResults` documents,
and every returned document carries the requested label-or-category name
as its label and was built from a message whose parsed plain-text body
is non-empty. -/
theorem C10_getEmailsForLabel_bound
    (listMsgs : String → Nat → Option String → ListPage)
    (getMsg : String → Option EmailData) (labelOrCategory : String)
    (maxResults fuel : Nat)
    (hapi : ∀ q n tok, (((listMsgs q n tok).messages).getD []).length ≤ n) :
    (getEmailsForLabel listMsgs getMsg labelOrCategory maxResults fuel).length
      ≤ maxResults ∧
    ∀ d ∈ getEmailsForLabel listMsgs getMsg labelOrCategory maxResults fuel,
      d.label = labelOrCategory ∧ ∃ email : EmailData, bodyOf email ≠ "" ∧
        d.content = trainEmailContent (subjectOf email) (bodyOf email) := by
  have h := fetchLoop_spec (listMsgs (buildQuery labelOrCategory)) getMsg
    labelOrCategory maxResults (fun n tok => hapi _ n tok) fuel none [] (by simp)
  unfold getEmailsForLabel
  refine ⟨h.1, ?_⟩
  intro d hd
  rcases h.2 d hd with hd2 | hd2
  · simp at hd2
  · exact hd2

/-- Witness for C10 at a concrete environment that returns an empty
message page. -/
theorem C10_getEmailsForLabel_bound_witness :
    (getEmailsForLabel (fun _ _ _ => { messages := some [], nextPageToken := none })
      (fun _ => none) "Primary" 5 3).length ≤ 5 ∧
    ∀ d ∈ getEmailsForLabel (fun _ _ _ => { messages := some [], nextPageToken := none })
      (fun _ => none) "Primary" 5 3,
      d.label = "Primary" ∧ ∃ email : EmailData, bodyOf email ≠ "" ∧
        d.content = trainEmailContent (subjectOf email) (bodyOf email) :=
  C10_getEmailsForLabel_bound (fun _ _ _ => { messages := some [], nextPageToken := none })
    (fun _ => none) "Primary" 5 3 (by intro q n tok; simp)
